import Mathlib

/-!
Verification of `crates/duckdb/src/vtab/value.rs` (duckdb-rs): the `Value`
wrapper that owns a single foreign `duckdb_value` handle.

Shallow embedding: raw handles (`duckdb_value`, `duckdb_logical_type`,
rendered `char*` buffers) are natural numbers, with `0` as the null-pointer
sentinel.  The foreign layer is an explicit environment `FFIEnv` giving the
result of each foreign call, and every embedded operation returns its result
together with the ordered trace of foreign calls it performs (`FFICall`),
so that resource-lifecycle claims (release exactly once, no leak, call order)
become statements about traces.
-/

set_option autoImplicit false

namespace DuckRs

/-- The foreign layer (duckdb C API) as a pure environment: one field per
foreign entry point called by `value.rs`, giving the value that call returns
for a given handle.  Handles, logical types and buffer pointers are `Nat`
(0 = null).  `f32`/`f64` results are modelled as their bit patterns (`Nat`),
since the wrapper moves them through unchanged.  `mem p` gives the bytes
stored at buffer pointer `p` (used by `CStr::from_ptr` on the
`duckdb_get_varchar` result). -/
structure FFIEnv where
  duckdb_get_bool : Nat → Bool
  duckdb_get_int8 : Nat → Int
  duckdb_get_uint8 : Nat → Nat
  duckdb_get_int16 : Nat → Int
  duckdb_get_uint16 : Nat → Nat
  duckdb_get_int32 : Nat → Int
  duckdb_get_uint32 : Nat → Nat
  duckdb_get_int64 : Nat → Int
  duckdb_get_uint64 : Nat → Nat
  duckdb_get_float : Nat → Nat
  duckdb_get_double : Nat → Nat
  duckdb_get_list_size : Nat → Nat
  duckdb_get_list_child : Nat → Nat → Nat
  duckdb_is_null_value : Nat → Bool
  duckdb_get_value_type : Nat → Nat
  duckdb_get_type_id : Nat → Nat
  duckdb_get_varchar : Nat → Nat
  mem : Nat → List Nat

/-- `pub struct Value { pub(crate) ptr: duckdb_value }`: the wrapper owns one
raw handle; `ptr = 0` is the null-pointer sentinel left behind by `Drop`. -/
structure Value where
  ptr : Nat
deriving DecidableEq, Repr

/-- `impl From<duckdb_value> for Value`: wrap a raw handle. -/
def Value.ofPtr (p : Nat) : Value := ⟨p⟩

/-- One outbound foreign call, recording its arguments and (for calls that
hand back a handle or buffer) its result. -/
inductive FFICall where
  | destroyValueCall (handle : Nat)
  | getBoolCall (handle : Nat)
  | getInt8Call (handle : Nat)
  | getUint8Call (handle : Nat)
  | getInt16Call (handle : Nat)
  | getUint16Call (handle : Nat)
  | getInt32Call (handle : Nat)
  | getUint32Call (handle : Nat)
  | getInt64Call (handle : Nat)
  | getUint64Call (handle : Nat)
  | getFloatCall (handle : Nat)
  | getDoubleCall (handle : Nat)
  | getListSizeCall (handle : Nat) (size : Nat)
  | getListChildCall (handle : Nat) (idx : Nat) (child : Nat)
  | isNullValueCall (handle : Nat)
  | getValueTypeCall (handle : Nat) (lt : Nat)
  | getTypeIdCall (lt : Nat)
  | getVarcharCall (handle : Nat) (buf : Nat)
  | freeCall (buf : Nat)
  | destroyLogicalTypeCall (lt : Nat)
deriving DecidableEq, Repr

/-- A foreign-owned resource that can be acquired or released across the
boundary: a value handle, a logical-type description handle, or a rendered
text buffer. -/
inductive Res where
  | valueHandle (h : Nat)
  | typeHandle (t : Nat)
  | buffer (b : Nat)
deriving DecidableEq, Repr

/-- Modelled from the spec: the foreign layer's ownership conventions for the
calls this component makes (the C constructors/destructors themselves are
outside `src/`).  `duckdb_get_list_child` "yields a new, independently-owned
handle, not a borrowed view"; `duckdb_get_varchar` allocates a scratch buffer
"which this operation alone allocates and must alone free";
`duckdb_get_value_type` returns a transient description that "is documented
as borrowed with no separate lifetime", so it acquires nothing the caller
owns.  Pure reads acquire nothing. -/
def acquiredRes : FFICall → Option Res
  | .getListChildCall _ _ c => some (.valueHandle c)
  | .getVarcharCall _ b => some (.buffer b)
  | _ => none

/-- Which resource a call releases back to the foreign layer:
`duckdb_destroy_value` releases a value handle, `duckdb_free` a buffer,
`duckdb_destroy_logical_type` a logical-type handle; nothing else releases. -/
def releasedRes : FFICall → Option Res
  | .destroyValueCall h => some (.valueHandle h)
  | .freeCall b => some (.buffer b)
  | .destroyLogicalTypeCall t => some (.typeHandle t)
  | _ => none

/-- The owned resources a trace acquires, in order. -/
def acquired (tr : List FFICall) : List Res := tr.filterMap acquiredRes

/-- The resources a trace releases, in order. -/
def released (tr : List FFICall) : List Res := tr.filterMap releasedRes

/-- Resources acquired by the trace and never released by it: what the
operation leaks. -/
def leaked (tr : List FFICall) : List Res :=
  (acquired tr).filter (fun r => decide (r ∉ released tr))

/-- How many times a trace invokes the foreign deallocation entry point
`duckdb_destroy_value` on a given handle. -/
def destroyCount (tr : List FFICall) (h : Nat) : Nat :=
  (tr.filter (fun c => decide (c = .destroyValueCall h))).length

/-- `impl Drop for Value::drop`: if the stored pointer is non-null, call
`duckdb_destroy_value(&mut self.ptr)`; then store the null pointer.  Returns
the post-state of the wrapper and the trace of foreign calls. -/
def Value.dropFn (v : Value) : Value × List FFICall :=
  if v.ptr ≠ 0 then (⟨0⟩, [.destroyValueCall v.ptr]) else (⟨0⟩, [])

/-- C1: on destruction, `duckdb_destroy_value` runs exactly once iff the
stored handle is non-sentinel; afterwards the stored handle is the sentinel;
dropping the resulting state again, or a never-populated (sentinel) `Value`,
performs no foreign deallocation at all. -/
theorem drop_release_idempotent (v : Value) :
    destroyCount (Value.dropFn v).2 v.ptr = (if v.ptr ≠ 0 then 1 else 0) ∧
    (∀ h, h ≠ v.ptr → destroyCount (Value.dropFn v).2 h = 0) ∧
    (Value.dropFn v).1.ptr = 0 ∧
    (Value.dropFn (Value.dropFn v).1).2 = [] ∧
    (Value.dropFn (Value.ofPtr 0)).2 = [] := by
  by_cases hv : v.ptr = 0
  · simp [Value.dropFn, destroyCount, hv, Value.ofPtr, List.filter]
  · refine ⟨?_, fun h hh => ?_, ?_, ?_, ?_⟩
    · simp [Value.dropFn, destroyCount, hv, List.filter]
    · simp [Value.dropFn, destroyCount, hv, List.filter,
        FFICall.destroyValueCall.injEq, Ne.symm hh]
    · simp [Value.dropFn, hv]
    · simp [Value.dropFn, hv]
    · simp [Value.dropFn, Value.ofPtr]

/-- `Value::to_bool` (from `primitive_getters!`): one delegated read
`duckdb_get_bool(self.ptr)`. -/
def Value.to_bool (env : FFIEnv) (v : Value) : Bool × List FFICall :=
  (env.duckdb_get_bool v.ptr, [.getBoolCall v.ptr])

/-- `Value::to_int8`: one delegated read `duckdb_get_int8(self.ptr)`. -/
def Value.to_int8 (env : FFIEnv) (v : Value) : Int × List FFICall :=
  (env.duckdb_get_int8 v.ptr, [.getInt8Call v.ptr])

/-- `Value::to_uint8`: one delegated read `duckdb_get_uint8(self.ptr)`. -/
def Value.to_uint8 (env : FFIEnv) (v : Value) : Nat × List FFICall :=
  (env.duckdb_get_uint8 v.ptr, [.getUint8Call v.ptr])

/-- `Value::to_int16`: one delegated read `duckdb_get_int16(self.ptr)`. -/
def Value.to_int16 (env : FFIEnv) (v : Value) : Int × List FFICall :=
  (env.duckdb_get_int16 v.ptr, [.getInt16Call v.ptr])

/-- `Value::to_uint16`: one delegated read `duckdb_get_uint16(self.ptr)`. -/
def Value.to_uint16 (env : FFIEnv) (v : Value) : Nat × List FFICall :=
  (env.duckdb_get_uint16 v.ptr, [.getUint16Call v.ptr])

/-- `Value::to_int32`: one delegated read `duckdb_get_int32(self.ptr)`. -/
def Value.to_int32 (env : FFIEnv) (v : Value) : Int × List FFICall :=
  (env.duckdb_get_int32 v.ptr, [.getInt32Call v.ptr])

/-- `Value::to_uint32`: one delegated read `duckdb_get_uint32(self.ptr)`. -/
def Value.to_uint32 (env : FFIEnv) (v : Value) : Nat × List FFICall :=
  (env.duckdb_get_uint32 v.ptr, [.getUint32Call v.ptr])

/-- `Value::to_int64`: one delegated read `duckdb_get_int64(self.ptr)`. -/
def Value.to_int64 (env : FFIEnv) (v : Value) : Int × List FFICall :=
  (env.duckdb_get_int64 v.ptr, [.getInt64Call v.ptr])

/-- `Value::to_uint64`: one delegated read `duckdb_get_uint64(self.ptr)`. -/
def Value.to_uint64 (env : FFIEnv) (v : Value) : Nat × List FFICall :=
  (env.duckdb_get_uint64 v.ptr, [.getUint64Call v.ptr])

/-- `Value::to_float`: one delegated read `duckdb_get_float(self.ptr)`
(result as `f32` bit pattern). -/
def Value.to_float (env : FFIEnv) (v : Value) : Nat × List FFICall :=
  (env.duckdb_get_float v.ptr, [.getFloatCall v.ptr])

/-- `Value::to_double`: one delegated read `duckdb_get_double(self.ptr)`
(result as `f64` bit pattern). -/
def Value.to_double (env : FFIEnv) (v : Value) : Nat × List FFICall :=
  (env.duckdb_get_double v.ptr, [.getDoubleCall v.ptr])

/-- `Value::is_null`: one delegated read `duckdb_is_null_value(self.ptr)`. -/
def Value.is_null (env : FFIEnv) (v : Value) : Bool × List FFICall :=
  (env.duckdb_is_null_value v.ptr, [.isNullValueCall v.ptr])

/-- `Value::logical_type_id`: `let logical_type =
duckdb_get_value_type(self.ptr); duckdb_get_type_id(logical_type).into()`.
The `.into()` step (`u32 → LogicalTypeId`, in `crate::core`, outside this
file) is a pure relabelling of the returned tag, kept here as the raw tag. -/
def Value.logical_type_id (env : FFIEnv) (v : Value) : Nat × List FFICall :=
  let logical_type := env.duckdb_get_value_type v.ptr
  (env.duckdb_get_type_id logical_type,
    [.getValueTypeCall v.ptr logical_type, .getTypeIdCall logical_type])

/-- `isize::MAX` on the 64-bit targets this crate builds for. -/
def isizeMax : Nat := 2 ^ 63 - 1

/-- `size_of::<Value>()`: the wrapper holds one raw pointer, 8 bytes on a
64-bit target. -/
def valueByteSize : Nat := 8

/-- The one abnormal exit `value.rs` can take: `Vec::with_capacity` panics
with a capacity overflow when the requested capacity exceeds
`isize::MAX` bytes. -/
inductive Panic where
  | capacityOverflow
deriving DecidableEq, Repr

/-- `Value::to_vec`: read `size = duckdb_get_list_size(self.ptr)`, allocate
`Vec::with_capacity(size.try_into().unwrap())` (`u64 → usize` never fails on
a 64-bit target, but `with_capacity` panics with a capacity overflow when
`size * size_of::<Value>()` exceeds `isize::MAX`), then for each
`i in 0..size` push `Value::from(duckdb_get_list_child(self.ptr, i))`.
The loop is embedded as the source's fold over `0..size`. -/
def Value.to_vec (env : FFIEnv) (v : Value) :
    Except Panic (List Value) × List FFICall :=
  let size := env.duckdb_get_list_size v.ptr
  if size * valueByteSize ≤ isizeMax then
    let step := fun (acc : List Value × List FFICall) (i : Nat) =>
      let child := env.duckdb_get_list_child v.ptr i
      (acc.1 ++ [Value.ofPtr child], acc.2 ++ [.getListChildCall v.ptr i child])
    let r := (List.range size).foldl step ([], [.getListSizeCall v.ptr size])
    (.ok r.1, r.2)
  else
    (.error .capacityOverflow, [.getListSizeCall v.ptr size])

theorem to_vec_foldl (env : FFIEnv) (v : Value) (is : List Nat) :
    ∀ (acc : List Value) (tr : List FFICall),
      is.foldl
        (fun (acc : List Value × List FFICall) (i : Nat) =>
          let child := env.duckdb_get_list_child v.ptr i
          (acc.1 ++ [Value.ofPtr child],
            acc.2 ++ [.getListChildCall v.ptr i child]))
        (acc, tr) =
      (acc ++ is.map (fun i => Value.ofPtr (env.duckdb_get_list_child v.ptr i)),
        tr ++ is.map (fun i =>
          FFICall.getListChildCall v.ptr i (env.duckdb_get_list_child v.ptr i))) := by
  induction is with
  | nil => intro acc tr; simp
  | cons j js ih =>
    intro acc tr
    simp only [List.foldl_cons]
    rw [ih]
    simp

theorem to_vec_ok (env : FFIEnv) (v : Value)
    (h : env.duckdb_get_list_size v.ptr * valueByteSize ≤ isizeMax) :
    Value.to_vec env v =
      (Except.ok ((List.range (env.duckdb_get_list_size v.ptr)).map
          fun i => Value.ofPtr (env.duckdb_get_list_child v.ptr i)),
        FFICall.getListSizeCall v.ptr (env.duckdb_get_list_size v.ptr) ::
          (List.range (env.duckdb_get_list_size v.ptr)).map (fun i =>
            FFICall.getListChildCall v.ptr i
              (env.duckdb_get_list_child v.ptr i))) := by
  rw [Value.to_vec]
  simp only [if_pos h]
  rw [to_vec_foldl]
  simp

theorem to_vec_overflow (env : FFIEnv) (v : Value)
    (h : ¬ env.duckdb_get_list_size v.ptr * valueByteSize ≤ isizeMax) :
    Value.to_vec env v =
      (Except.error Panic.capacityOverflow,
        [FFICall.getListSizeCall v.ptr (env.duckdb_get_list_size v.ptr)]) := by
  rw [Value.to_vec]
  simp only [if_neg h]

/-- U+FFFD, the replacement character substituted by
`CStr::to_string_lossy` for each maximal invalid UTF-8 subpart. -/
def replChar : Nat := 0xFFFD

/-- Whether `b1` is admissible as the first continuation byte after the
three-byte lead `b` (Rust std's UTF-8 validation table: `0xE0` requires
`0xA0..=0xBF`, `0xED` requires `0x80..=0x9F` to exclude surrogates, the
rest `0x80..=0xBF`). -/
def cont3first (b b1 : Nat) : Bool :=
  if b = 0xE0 then decide (0xA0 ≤ b1 ∧ b1 ≤ 0xBF)
  else if b = 0xED then decide (0x80 ≤ b1 ∧ b1 ≤ 0x9F)
  else decide (0x80 ≤ b1 ∧ b1 ≤ 0xBF)

/-- Whether `b1` is admissible as the first continuation byte after the
four-byte lead `b` (`0xF0` requires `0x90..=0xBF`, `0xF4` requires
`0x80..=0x8F`, the rest `0x80..=0xBF`). -/
def cont4first (b b1 : Nat) : Bool :=
  if b = 0xF0 then decide (0x90 ≤ b1 ∧ b1 ≤ 0xBF)
  else if b = 0xF4 then decide (0x80 ≤ b1 ∧ b1 ≤ 0x8F)
  else decide (0x80 ≤ b1 ∧ b1 ≤ 0xBF)

/-- Whether `b` is a UTF-8 continuation byte (`0x80..=0xBF`). -/
def isCont (b : Nat) : Bool := decide (0x80 ≤ b ∧ b ≤ 0xBF)

/-- One step of Rust std's lossy UTF-8 decoding (`to_string_lossy`):
given the first byte and the remaining bytes, return the scalar value
produced (the decoded character, or U+FFFD for a maximal invalid subpart)
and how many bytes beyond the first were consumed.  An invalid lead, or a
lead whose first continuation byte is inadmissible, consumes only the lead;
a longer valid prefix cut short (by a bad byte or by the end of the input,
both read here as the out-of-range default `0x100`) consumes exactly that
prefix — the "maximal subpart" substitution `from_utf8_lossy` implements. -/
def decodeStep (b : Nat) (rest : List Nat) : Nat × Nat :=
  if b < 0x80 then (b, 0)
  else if b < 0xC2 then (replChar, 0)
  else if b ≤ 0xDF then
    if isCont (rest.getD 0 0x100) then
      ((b - 0xC0) * 64 + (rest.getD 0 0x100 - 0x80), 1)
    else (replChar, 0)
  else if b ≤ 0xEF then
    if cont3first b (rest.getD 0 0x100) then
      if isCont (rest.getD 1 0x100) then
        ((b - 0xE0) * 4096 + (rest.getD 0 0x100 - 0x80) * 64 +
          (rest.getD 1 0x100 - 0x80), 2)
      else (replChar, 1)
    else (replChar, 0)
  else if b ≤ 0xF4 then
    if cont4first b (rest.getD 0 0x100) then
      if isCont (rest.getD 1 0x100) then
        if isCont (rest.getD 2 0x100) then
          ((b - 0xF0) * 262144 + (rest.getD 0 0x100 - 0x80) * 4096 +
            (rest.getD 1 0x100 - 0x80) * 64 + (rest.getD 2 0x100 - 0x80), 3)
        else (replChar, 2)
      else (replChar, 1)
    else (replChar, 0)
  else (replChar, 0)

/-- Fuel-indexed driver for lossy decoding; the fuel only serves structural
recursion and is irrelevant once it covers the list length. -/
def decodeLoop : Nat → List Nat → List Nat
  | _, [] => []
  | 0, _ :: _ => []
  | fuel + 1, b :: rest =>
    let s := decodeStep b rest
    s.1 :: decodeLoop fuel (rest.drop s.2)

/-- `<[u8]>::to_string_lossy` semantics: decode a byte slice to the list of
scalar values, replacing each maximal invalid subpart with U+FFFD. -/
def utf8DecodeLossy (l : List Nat) : List Nat := decodeLoop l.length l

/-- The rendering sub-step of `impl fmt::Display for Value::fmt`:
`CStr::from_ptr(varchar)` reads the bytes at the buffer strictly before the
first NUL, and `to_string_lossy` decodes them. -/
def renderBytes (env : FFIEnv) (v : Value) : List Nat :=
  (env.mem (env.duckdb_get_varchar v.ptr)).takeWhile (fun b => b != 0)

/-- The scalar values `Value::fmt` writes to the formatter. -/
def fmtRender (env : FFIEnv) (v : Value) : List Nat :=
  utf8DecodeLossy (renderBytes env v)

/-- `impl fmt::Display for Value::fmt`: obtain the rendered buffer with
`duckdb_get_varchar(self.ptr)`, read it as a NUL-terminated C string, write
its lossy decoding to the formatter (`wr`, which like `write!` may fail),
free the buffer with `duckdb_free`, and return the formatter's result. -/
def Value.fmtOp (env : FFIEnv) (v : Value) (wr : List Nat → Bool) :
    Bool × List FFICall :=
  let varchar := env.duckdb_get_varchar v.ptr
  let out := utf8DecodeLossy ((env.mem varchar).takeWhile (fun b => b != 0))
  let res := wr out
  (res, [.getVarcharCall v.ptr varchar, .freeCall varchar])

/-- UTF-8 encoding of one scalar value (standard 1–4 byte layout). -/
def utf8EncodeChar (c : Nat) : List Nat :=
  if c < 0x80 then [c]
  else if c < 0x800 then [0xC0 + c / 64, 0x80 + c % 64]
  else if c < 0x10000 then
    [0xE0 + c / 4096, 0x80 + c / 64 % 64, 0x80 + c % 64]
  else
    [0xF0 + c / 262144, 0x80 + c / 4096 % 64, 0x80 + c / 64 % 64,
      0x80 + c % 64]

/-- UTF-8 encoding of a list of scalar values. -/
def utf8Encode (s : List Nat) : List Nat := (s.map utf8EncodeChar).flatten

/-- A Unicode scalar value: in range and not a surrogate (what a Rust
`char` can hold). -/
def ValidScalar (c : Nat) : Prop :=
  c < 0x110000 ∧ ¬(0xD800 ≤ c ∧ c ≤ 0xDFFF)

instance (c : Nat) : Decidable (ValidScalar c) := by
  unfold ValidScalar; infer_instance

theorem decodeLoop_nil (f : Nat) : decodeLoop f [] = [] := by
  cases f <;> rfl

theorem decodeLoop_congr :
    ∀ (f1 f2 : Nat) (l : List Nat), l.length ≤ f1 → l.length ≤ f2 →
      decodeLoop f1 l = decodeLoop f2 l := by
  intro f1
  induction f1 with
  | zero =>
    intro f2 l h1 _
    have hl : l = [] := List.length_eq_zero.mp (Nat.le_zero.mp h1)
    subst hl
    simp [decodeLoop_nil]
  | succ f ih =>
    intro f2 l h1 h2
    cases l with
    | nil => simp [decodeLoop_nil]
    | cons b rest =>
      cases f2 with
      | zero => simp at h2
      | succ f2' =>
        simp only [decodeLoop]
        congr 1
        apply ih
        · simp only [List.length_drop]
          simp only [List.length_cons] at h1
          omega
        · simp only [List.length_drop]
          simp only [List.length_cons] at h2
          omega

theorem utf8DecodeLossy_cons (b : Nat) (rest : List Nat) :
    utf8DecodeLossy (b :: rest) =
      (decodeStep b rest).1 ::
        utf8DecodeLossy (rest.drop (decodeStep b rest).2) := by
  show decodeLoop (rest.length + 1) (b :: rest) = _
  simp only [decodeLoop]
  congr 1
  exact decodeLoop_congr rest.length (rest.drop (decodeStep b rest).2).length _
    (by simp only [List.length_drop]; omega) (Nat.le_refl _)

theorem digit_decomp (c : Nat) :
    64 * (c / 64) + c % 64 = c ∧
    64 * (c / 4096) + c / 64 % 64 = c / 64 ∧
    64 * (c / 262144) + c / 4096 % 64 = c / 4096 ∧
    c % 64 < 64 ∧ c / 64 % 64 < 64 ∧ c / 4096 % 64 < 64 := by
  refine ⟨Nat.div_add_mod c 64, ?_, ?_, Nat.mod_lt _ (by norm_num),
    Nat.mod_lt _ (by norm_num), Nat.mod_lt _ (by norm_num)⟩
  · have h := Nat.div_add_mod (c / 64) 64
    rwa [Nat.div_div_eq_div_mul, show 64 * 64 = 4096 from rfl] at h
  · have h := Nat.div_add_mod (c / 4096) 64
    rwa [Nat.div_div_eq_div_mul, show 4096 * 64 = 262144 from rfl] at h

theorem decodeStep_one (c : Nat) (h : c < 0x80) (rest : List Nat) :
    decodeStep c rest = (c, 0) := by
  simp [decodeStep, h]

theorem decodeStep_two (c : Nat) (h1 : 0x80 ≤ c) (h2 : c < 0x800)
    (rest : List Nat) :
    decodeStep (0xC0 + c / 64) ((0x80 + c % 64) :: rest) = (c, 1) := by
  have e0 : ¬ (0xC0 + c / 64 < 0x80) := by omega
  have e1 : ¬ (0xC0 + c / 64 < 0xC2) := by omega
  have e2 : 0xC0 + c / 64 ≤ 0xDF := by omega
  have e3 : isCont ((((0x80 + c % 64)) :: rest).getD 0 0x100) = true := by
    simp only [List.getD_cons_zero, isCont, decide_eq_true_eq]
    omega
  rw [decodeStep, if_neg e0, if_neg e1, if_pos e2, if_pos e3]
  simp only [List.getD_cons_zero, Prod.mk.injEq]
  refine ⟨?_, trivial⟩
  omega

theorem decodeStep_three (c : Nat) (h1 : 0x800 ≤ c) (h2 : c < 0x10000)
    (hs : ¬(0xD800 ≤ c ∧ c ≤ 0xDFFF)) (rest : List Nat) :
    decodeStep (0xE0 + c / 4096)
      ((0x80 + c / 64 % 64) :: (0x80 + c % 64) :: rest) = (c, 2) := by
  obtain ⟨d1, d2, d3, d4, d5, d6⟩ := digit_decomp c
  have e0 : ¬ (0xE0 + c / 4096 < 0x80) := by omega
  have e1 : ¬ (0xE0 + c / 4096 < 0xC2) := by omega
  have e2 : ¬ (0xE0 + c / 4096 ≤ 0xDF) := by omega
  have e3 : 0xE0 + c / 4096 ≤ 0xEF := by omega
  have e4 : cont3first (0xE0 + c / 4096)
      ((((0x80 + c / 64 % 64)) :: (0x80 + c % 64) :: rest).getD 0 0x100)
        = true := by
    simp only [List.getD_cons_zero, cont3first]
    split_ifs <;> (simp only [decide_eq_true_eq]; omega)
  have e5 : isCont
      ((((0x80 + c / 64 % 64)) :: (0x80 + c % 64) :: rest).getD 1 0x100)
        = true := by
    simp only [List.getD_cons_succ, List.getD_cons_zero, isCont,
      decide_eq_true_eq]
    omega
  rw [decodeStep, if_neg e0, if_neg e1, if_neg e2, if_pos e3, if_pos e4,
    if_pos e5]
  simp only [List.getD_cons_succ, List.getD_cons_zero, Prod.mk.injEq]
  refine ⟨?_, trivial⟩
  omega

theorem decodeStep_four (c : Nat) (h1 : 0x10000 ≤ c) (h2 : c < 0x110000)
    (rest : List Nat) :
    decodeStep (0xF0 + c / 262144)
      ((0x80 + c / 4096 % 64) :: (0x80 + c / 64 % 64) ::
        (0x80 + c % 64) :: rest) = (c, 3) := by
  obtain ⟨d1, d2, d3, d4, d5, d6⟩ := digit_decomp c
  have e0 : ¬ (0xF0 + c / 262144 < 0x80) := by omega
  have e1 : ¬ (0xF0 + c / 262144 < 0xC2) := by omega
  have e2 : ¬ (0xF0 + c / 262144 ≤ 0xDF) := by omega
  have e3 : ¬ (0xF0 + c / 262144 ≤ 0xEF) := by omega
  have e4 : 0xF0 + c / 262144 ≤ 0xF4 := by omega
  have e5 : cont4first (0xF0 + c / 262144)
      ((((0x80 + c / 4096 % 64)) :: (0x80 + c / 64 % 64) ::
        (0x80 + c % 64) :: rest).getD 0 0x100) = true := by
    simp only [List.getD_cons_zero, cont4first]
    split_ifs <;> (simp only [decide_eq_true_eq]; omega)
  have e6 : isCont
      ((((0x80 + c / 4096 % 64)) :: (0x80 + c / 64 % 64) ::
        (0x80 + c % 64) :: rest).getD 1 0x100) = true := by
    simp only [List.getD_cons_succ, List.getD_cons_zero, isCont,
      decide_eq_true_eq]
    omega
  have e7 : isCont
      ((((0x80 + c / 4096 % 64)) :: (0x80 + c / 64 % 64) ::
        (0x80 + c % 64) :: rest).getD 2 0x100) = true := by
    simp only [List.getD_cons_succ, List.getD_cons_zero, isCont,
      decide_eq_true_eq]
    omega
  rw [decodeStep, if_neg e0, if_neg e1, if_neg e2, if_neg e3, if_pos e4,
    if_pos e5, if_pos e6, if_pos e7]
  simp only [List.getD_cons_succ, List.getD_cons_zero, Prod.mk.injEq]
  refine ⟨?_, trivial⟩
  omega

theorem utf8DecodeLossy_encodeChar (c : Nat) (hc : ValidScalar c)
    (rest : List Nat) :
    utf8DecodeLossy (utf8EncodeChar c ++ rest) = c :: utf8DecodeLossy rest := by
  obtain ⟨hlt, hsur⟩ := hc
  by_cases h1 : c < 0x80
  · simp only [utf8EncodeChar, if_pos h1, List.cons_append, List.nil_append]
    rw [utf8DecodeLossy_cons, decodeStep_one c h1 rest]
    simp
  · by_cases h2 : c < 0x800
    · simp only [utf8EncodeChar, if_neg h1, if_pos h2, List.cons_append,
        List.nil_append]
      rw [utf8DecodeLossy_cons, decodeStep_two c (by omega) h2 rest]
      simp
    · by_cases h3 : c < 0x10000
      · simp only [utf8EncodeChar, if_neg h1, if_neg h2, if_pos h3,
          List.cons_append, List.nil_append]
        rw [utf8DecodeLossy_cons, decodeStep_three c (by omega) h3 hsur rest]
        simp
      · simp only [utf8EncodeChar, if_neg h1, if_neg h2, if_neg h3,
          List.cons_append, List.nil_append]
        rw [utf8DecodeLossy_cons, decodeStep_four c (by omega) hlt rest]
        simp

theorem utf8_decode_encode (s : List Nat) (hs : ∀ c ∈ s, ValidScalar c) :
    utf8DecodeLossy (utf8Encode s) = s := by
  induction s with
  | nil => rfl
  | cons c cs ih =>
    have : utf8Encode (c :: cs) = utf8EncodeChar c ++ utf8Encode cs := by
      simp [utf8Encode]
    rw [this, utf8DecodeLossy_encodeChar c (hs c (by simp)),
      ih (fun d hd => hs d (by simp [hd]))]

theorem utf8EncodeChar_ne_zero (c : Nat) (hc : c ≠ 0) :
    ∀ b ∈ utf8EncodeChar c, b ≠ 0 := by
  intro b hb
  simp only [utf8EncodeChar] at hb
  split_ifs at hb <;> simp only [List.mem_cons, List.mem_singleton,
    List.not_mem_nil, or_false] at hb <;> omega

theorem utf8Encode_ne_zero (s : List Nat) (hs : ∀ c ∈ s, c ≠ 0) :
    ∀ b ∈ utf8Encode s, b ≠ 0 := by
  intro b hb
  simp only [utf8Encode, List.mem_flatten, List.mem_map] at hb
  obtain ⟨l, ⟨c, hc, rfl⟩, hbl⟩ := hb
  exact utf8EncodeChar_ne_zero c (hs c hc) b hbl

theorem takeWhile_append_zero (pre post : List Nat)
    (h : ∀ b ∈ pre, b ≠ 0) :
    (pre ++ 0 :: post).takeWhile (fun b => b != 0) = pre := by
  induction pre with
  | nil => simp [List.takeWhile]
  | cons a t ih =>
    have ha : (a != 0) = true := by
      simp only [bne_iff_ne, ne_eq]
      exact h a (by simp)
    simp only [List.cons_append, List.takeWhile_cons, ha, if_true]
    rw [ih (fun b hb => h b (by simp [hb]))]

/-- Modelled from the spec: the stored content of a primitive foreign value.
The constructors `duckdb_create_bool` .. `duckdb_create_double` are external
collaborators ("construction helpers ... treated as inputs that already hand
over a valid handle", outside `src/`); per the spec they store the given
primitive exactly, and "constructing a value of that kind with input X and
reading it back via the matching accessor must yield X exactly".  Floats
and doubles are carried as their bit patterns, which the foreign layer moves
unchanged for representable values. -/
inductive DuckVal where
  | boolV (b : Bool)
  | int8V (n : Int)
  | uint8V (n : Nat)
  | int16V (n : Int)
  | uint16V (n : Nat)
  | int32V (n : Int)
  | uint32V (n : Nat)
  | int64V (n : Int)
  | uint64V (n : Nat)
  | floatV (bits : Nat)
  | doubleV (bits : Nat)
deriving DecidableEq, Repr

/-- Modelled from the spec: the foreign layer's store of live value objects,
mapping non-sentinel handles to their stored content. -/
structure DuckHeap where
  store : Nat → Option DuckVal
  next : Nat

/-- Modelled from the spec: a foreign constructor allocates a fresh
non-sentinel handle and stores the given primitive under it, handing the
handle over to the wrapper. -/
def createPrim (h : DuckHeap) (x : DuckVal) : Nat × DuckHeap :=
  let p := h.next + 1
  (p, ⟨fun q => if q = p then some x else h.store q, p⟩)

/-- Modelled from the spec: the foreign readers `duckdb_get_bool` ..
`duckdb_get_double` return the primitive stored under the handle (a
kind mismatch is a caller-contract violation; the model returns the foreign
layer's unspecified fallback, here zero).  Fields the primitive claims do
not touch are inert. -/
def envOfHeap (h : DuckHeap) : FFIEnv where
  duckdb_get_bool := fun p =>
    match h.store p with | some (.boolV b) => b | _ => false
  duckdb_get_int8 := fun p =>
    match h.store p with | some (.int8V n) => n | _ => 0
  duckdb_get_uint8 := fun p =>
    match h.store p with | some (.uint8V n) => n | _ => 0
  duckdb_get_int16 := fun p =>
    match h.store p with | some (.int16V n) => n | _ => 0
  duckdb_get_uint16 := fun p =>
    match h.store p with | some (.uint16V n) => n | _ => 0
  duckdb_get_int32 := fun p =>
    match h.store p with | some (.int32V n) => n | _ => 0
  duckdb_get_uint32 := fun p =>
    match h.store p with | some (.uint32V n) => n | _ => 0
  duckdb_get_int64 := fun p =>
    match h.store p with | some (.int64V n) => n | _ => 0
  duckdb_get_uint64 := fun p =>
    match h.store p with | some (.uint64V n) => n | _ => 0
  duckdb_get_float := fun p =>
    match h.store p with | some (.floatV n) => n | _ => 0
  duckdb_get_double := fun p =>
    match h.store p with | some (.doubleV n) => n | _ => 0
  duckdb_get_list_size := fun _ => 0
  duckdb_get_list_child := fun _ _ => 0
  duckdb_is_null_value := fun _ => false
  duckdb_get_value_type := fun _ => 0
  duckdb_get_type_id := fun _ => 0
  duckdb_get_varchar := fun _ => 0
  mem := fun _ => []

/-- Modelled from the spec: a textual value with content `s` (a list of
scalar values), as produced by the external construction helpers — the
foreign renderer `duckdb_get_varchar` hands back a buffer holding the
NUL-terminated UTF-8 encoding of `s`. -/
def TextualValue (env : FFIEnv) (v : Value) (s : List Nat) : Prop :=
  env.mem (env.duckdb_get_varchar v.ptr) = utf8Encode s ++ [0]

/-- Valid text content for a C-string round trip: every element is a Unicode
scalar value and none is the NUL terminator. -/
def ValidText (s : List Nat) : Prop :=
  ∀ c ∈ s, ValidScalar c ∧ c ≠ 0

instance (s : List Nat) : Decidable (ValidText s) := by
  unfold ValidText; infer_instance

instance (env : FFIEnv) (v : Value) (s : List Nat) :
    Decidable (TextualValue env v s) := by
  unfold TextualValue; infer_instance

theorem to_vec_trace_head (env : FFIEnv) (v : Value) :
    (Value.to_vec env v).2.head? =
      some (.getListSizeCall v.ptr (env.duckdb_get_list_size v.ptr)) := by
  by_cases h : env.duckdb_get_list_size v.ptr * valueByteSize ≤ isizeMax
  · rw [to_vec_ok env v h]
    rfl
  · rw [to_vec_overflow env v h]
    rfl

/-- A concrete foreign layer used to instantiate theorems with hypotheses:
it reports three list elements whose child handles are `10`, `11`, `12`. -/
def envA : FFIEnv where
  duckdb_get_bool := fun _ => false
  duckdb_get_int8 := fun _ => 0
  duckdb_get_uint8 := fun _ => 0
  duckdb_get_int16 := fun _ => 0
  duckdb_get_uint16 := fun _ => 0
  duckdb_get_int32 := fun _ => 0
  duckdb_get_uint32 := fun _ => 0
  duckdb_get_int64 := fun _ => 0
  duckdb_get_uint64 := fun _ => 0
  duckdb_get_float := fun _ => 0
  duckdb_get_double := fun _ => 0
  duckdb_get_list_size := fun _ => 3
  duckdb_get_list_child := fun _ i => 10 + i
  duckdb_is_null_value := fun _ => false
  duckdb_get_value_type := fun _ => 0
  duckdb_get_type_id := fun _ => 0
  duckdb_get_varchar := fun _ => 7
  mem := fun _ => []

/-- A concrete foreign layer whose rendered buffer is `['A', NUL, 'B']`. -/
def envB : FFIEnv := { envA with mem := fun _ => [65, 0, 66] }

/-- A concrete foreign layer whose rendered buffer is the NUL-terminated
UTF-8 text `"hi"`. -/
def envT : FFIEnv := { envA with mem := fun _ => [104, 105, 0] }

/-- A foreign layer reporting a list-element count of `2 ^ 61`, so the
capacity requested from `Vec::with_capacity` exceeds `isize::MAX` bytes. -/
def envOverflow : FFIEnv := { envA with duckdb_get_list_size := fun _ => 2 ^ 61 }

/-- C2: `logical_type_id` acquires no owned intermediate resource across the
foreign boundary (the transient logical-type description it obtains is
borrowed), so nothing it touches remains live after it returns — it leaks
nothing — and it releases nothing either, in particular it never transfers
or destroys the value handle itself. -/
theorem logical_type_id_no_leak (env : FFIEnv) (v : Value) :
    acquired (Value.logical_type_id env v).2 = [] ∧
    leaked (Value.logical_type_id env v).2 = [] ∧
    released (Value.logical_type_id env v).2 = [] := by
  refine ⟨rfl, ?_, rfl⟩
  simp [leaked, acquired, released, Value.logical_type_id, acquiredRes,
    releasedRes]

/-- C3: under the foreign-reported element count `n` (with the capacity
request in bounds, so the `Vec` allocation succeeds), `to_vec` returns the
sequence of exactly `n` owned wrappers whose `i`-th element wraps the handle
the per-element accessor returned for index `i`; its trace is the size query
followed by the `n` child queries in index order; and a zero count acquires
no child handle at all. -/
theorem to_vec_decomposition (env : FFIEnv) (v : Value) (n : Nat)
    (hn : env.duckdb_get_list_size v.ptr = n)
    (hcap : n * valueByteSize ≤ isizeMax) :
    (Value.to_vec env v).1 =
      Except.ok ((List.range n).map fun i =>
        Value.ofPtr (env.duckdb_get_list_child v.ptr i)) ∧
    (∀ l, (Value.to_vec env v).1 = Except.ok l →
      l.length = n ∧
        ∀ i, (hi : i < l.length) →
          (l.get ⟨i, hi⟩).ptr = env.duckdb_get_list_child v.ptr i) ∧
    (Value.to_vec env v).2 =
      FFICall.getListSizeCall v.ptr n ::
        (List.range n).map (fun i =>
          FFICall.getListChildCall v.ptr i (env.duckdb_get_list_child v.ptr i)) ∧
    (n = 0 → ∀ p i c, FFICall.getListChildCall p i c ∉ (Value.to_vec env v).2) := by
  have hv := to_vec_ok env v (hn ▸ hcap)
  rw [hn] at hv
  refine ⟨by rw [hv], ?_, by rw [hv], ?_⟩
  · intro l hl
    rw [hv] at hl
    simp only [Except.ok.injEq] at hl
    subst hl
    constructor
    · simp
    · intro i hi
      simp only [List.length_map, List.length_range] at hi
      simp [Value.ofPtr]
  · intro h0 p i c
    subst h0
    rw [hv]
    simp

theorem to_vec_decomposition_witness :
    (Value.to_vec envA (Value.ofPtr 5)).1 =
      Except.ok ((List.range 3).map fun i =>
        Value.ofPtr (envA.duckdb_get_list_child (Value.ofPtr 5).ptr i)) ∧
    (∀ l, (Value.to_vec envA (Value.ofPtr 5)).1 = Except.ok l →
      l.length = 3 ∧
        ∀ i, (hi : i < l.length) →
          (l.get ⟨i, hi⟩).ptr = envA.duckdb_get_list_child (Value.ofPtr 5).ptr i) ∧
    (Value.to_vec envA (Value.ofPtr 5)).2 =
      FFICall.getListSizeCall (Value.ofPtr 5).ptr 3 ::
        (List.range 3).map (fun i =>
          FFICall.getListChildCall (Value.ofPtr 5).ptr i
            (envA.duckdb_get_list_child (Value.ofPtr 5).ptr i)) ∧
    (3 = 0 → ∀ p i c,
      FFICall.getListChildCall p i c ∉ (Value.to_vec envA (Value.ofPtr 5)).2) :=
  to_vec_decomposition envA (Value.ofPtr 5) 3 rfl (by decide)

/-- C4: string rendering allocates exactly one foreign scratch buffer per
call and frees exactly that buffer exactly once before returning, for every
formatter outcome `wr` (the trace does not depend on whether writing into
the formatter fails), leaks nothing, and never invokes the value-handle
deallocator during rendering. -/
theorem fmt_buffer_discipline (env : FFIEnv) (v : Value)
    (wr : List Nat → Bool) :
    (Value.fmtOp env v wr).2 =
      [.getVarcharCall v.ptr (env.duckdb_get_varchar v.ptr),
        .freeCall (env.duckdb_get_varchar v.ptr)] ∧
    acquired (Value.fmtOp env v wr).2 =
      [.buffer (env.duckdb_get_varchar v.ptr)] ∧
    released (Value.fmtOp env v wr).2 =
      [.buffer (env.duckdb_get_varchar v.ptr)] ∧
    leaked (Value.fmtOp env v wr).2 = [] ∧
    (Value.fmtOp env v wr).2 = (Value.fmtOp env v (fun _ => false)).2 ∧
    (∀ h, FFICall.destroyValueCall h ∉ (Value.fmtOp env v wr).2) := by
  refine ⟨rfl, rfl, rfl, ?_, rfl, ?_⟩
  · simp [leaked, acquired, released, Value.fmtOp, acquiredRes, releasedRes]
  · intro h
    simp [Value.fmtOp]

/-- C7: rendering never fails because of text decoding — its result is
exactly the formatter's verdict on the (total) lossy rendering — and an
invalid byte sequence is replaced by the U+FFFD replacement marker while
decoding continues with the rest of the input. -/
theorem fmt_lossy_substitution (env : FFIEnv) (v : Value)
    (wr : List Nat → Bool) (b : Nat) (rest : List Nat)
    (hb1 : 0x80 ≤ b) (hb2 : b < 0xC2) :
    (Value.fmtOp env v wr).1 = wr (fmtRender env v) ∧
    utf8DecodeLossy (b :: rest) = replChar :: utf8DecodeLossy rest := by
  refine ⟨rfl, ?_⟩
  rw [utf8DecodeLossy_cons]
  have hstep : decodeStep b rest = (replChar, 0) := by
    rw [decodeStep, if_neg (by omega), if_pos hb2]
  rw [hstep]
  rfl

theorem fmt_lossy_substitution_witness :
    (Value.fmtOp envA (Value.ofPtr 5) (fun _ => true)).1 =
      (fun _ => true) (fmtRender envA (Value.ofPtr 5)) ∧
    utf8DecodeLossy (0x80 :: [65]) = replChar :: utf8DecodeLossy [65] :=
  fmt_lossy_substitution envA (Value.ofPtr 5) (fun _ => true) 0x80 [65]
    (by decide) (by decide)

/-- C10: rendering reads the foreign buffer as a NUL-terminated C string —
the output is the lossy decoding of exactly the bytes strictly before the
first NUL, so content at or after an embedded NUL is dropped, whatever it
is. -/
theorem fmt_nul_truncation (env : FFIEnv) (v : Value) (pre post : List Nat)
    (hmem : env.mem (env.duckdb_get_varchar v.ptr) = pre ++ 0 :: post)
    (hpre : ∀ b ∈ pre, b ≠ 0) :
    fmtRender env v = utf8DecodeLossy pre ∧
    ∀ wr, (Value.fmtOp env v wr).1 = wr (utf8DecodeLossy pre) := by
  have hb : renderBytes env v = pre := by
    rw [renderBytes, hmem, takeWhile_append_zero pre post hpre]
  constructor
  · rw [fmtRender, hb]
  · intro wr
    show wr (utf8DecodeLossy (renderBytes env v)) = _
    rw [hb]

theorem fmt_nul_truncation_witness :
    fmtRender envB (Value.ofPtr 5) = utf8DecodeLossy [65] ∧
    ∀ wr, (Value.fmtOp envB (Value.ofPtr 5) wr).1 = wr (utf8DecodeLossy [65]) :=
  fmt_nul_truncation envB (Value.ofPtr 5) [65] [66] rfl (by decide)

/-- C9: no accessor guards against the sentinel state — with the stored
handle equal to the null sentinel, every accessor still performs its foreign
call(s) with the sentinel handle `0` as argument, rather than
short-circuiting. -/
theorem sentinel_no_guard (env : FFIEnv) (wr : List Nat → Bool) :
    (Value.to_bool env (Value.ofPtr 0)).2 = [.getBoolCall 0] ∧
    (Value.to_int8 env (Value.ofPtr 0)).2 = [.getInt8Call 0] ∧
    (Value.to_uint8 env (Value.ofPtr 0)).2 = [.getUint8Call 0] ∧
    (Value.to_int16 env (Value.ofPtr 0)).2 = [.getInt16Call 0] ∧
    (Value.to_uint16 env (Value.ofPtr 0)).2 = [.getUint16Call 0] ∧
    (Value.to_int32 env (Value.ofPtr 0)).2 = [.getInt32Call 0] ∧
    (Value.to_uint32 env (Value.ofPtr 0)).2 = [.getUint32Call 0] ∧
    (Value.to_int64 env (Value.ofPtr 0)).2 = [.getInt64Call 0] ∧
    (Value.to_uint64 env (Value.ofPtr 0)).2 = [.getUint64Call 0] ∧
    (Value.to_float env (Value.ofPtr 0)).2 = [.getFloatCall 0] ∧
    (Value.to_double env (Value.ofPtr 0)).2 = [.getDoubleCall 0] ∧
    (Value.is_null env (Value.ofPtr 0)).2 = [.isNullValueCall 0] ∧
    (Value.to_vec env (Value.ofPtr 0)).2.head? =
      some (.getListSizeCall 0 (env.duckdb_get_list_size 0)) ∧
    (Value.logical_type_id env (Value.ofPtr 0)).2 =
      [.getValueTypeCall 0 (env.duckdb_get_value_type 0),
        .getTypeIdCall (env.duckdb_get_value_type 0)] ∧
    (Value.fmtOp env (Value.ofPtr 0) wr).2.head? =
      some (.getVarcharCall 0 (env.duckdb_get_varchar 0)) := by
  refine ⟨rfl, rfl, rfl, rfl, rfl, rfl, rfl, rfl, rfl, rfl, rfl, rfl, ?_,
    rfl, rfl⟩
  exact to_vec_trace_head env (Value.ofPtr 0)

/-- C8 counterexample: a foreign layer may report an element count of
`2 ^ 61`; `to_vec` then requests a capacity of `2 ^ 64` bytes from
`Vec::with_capacity`, which panics (capacity overflow) — an abnormal exit
that is not undefined behavior at the native boundary, contradicting the
claim that every operation's only exits are normal returns for every
foreign-layer response. -/
theorem to_vec_capacity_overflow_cex :
    (Value.to_vec envOverflow (Value.ofPtr 1)).1 =
      Except.error Panic.capacityOverflow := by
  rw [to_vec_overflow envOverflow (Value.ofPtr 1) (by decide)]

/-- C8 amended: every operation other than `to_vec` is a straight-line
total computation with no abnormal exit, and `to_vec` returns normally
exactly when the foreign-reported element count keeps the requested `Vec`
capacity within `isize::MAX` bytes; beyond that bound it exits by the
capacity-overflow panic and performs no child-handle acquisition. -/
theorem to_vec_panic_characterization (env : FFIEnv) (v : Value) :
    (Value.to_vec env v).1 =
      (if env.duckdb_get_list_size v.ptr * valueByteSize ≤ isizeMax then
        Except.ok ((List.range (env.duckdb_get_list_size v.ptr)).map
          fun i => Value.ofPtr (env.duckdb_get_list_child v.ptr i))
      else Except.error Panic.capacityOverflow) := by
  by_cases h : env.duckdb_get_list_size v.ptr * valueByteSize ≤ isizeMax
  · rw [to_vec_ok env v h, if_pos h]
  · rw [to_vec_overflow env v h, if_neg h]

/-- C6: rendering a textual value with valid content `s` (every element a
scalar value, none NUL) writes exactly `s` to the formatter — an exact
round trip through the foreign renderer and the lossy decoder. -/
theorem textual_round_trip (env : FFIEnv) (v : Value) (s : List Nat)
    (hs : ValidText s) (ht : TextualValue env v s) :
    fmtRender env v = s ∧ ∀ wr, (Value.fmtOp env v wr).1 = wr s := by
  have hb : renderBytes env v = utf8Encode s := by
    rw [renderBytes, ht,
      takeWhile_append_zero _ _ (utf8Encode_ne_zero s fun c hc => (hs c hc).2)]
  have hd : utf8DecodeLossy (utf8Encode s) = s :=
    utf8_decode_encode s fun c hc => (hs c hc).1
  constructor
  · rw [fmtRender, hb, hd]
  · intro wr
    show wr (utf8DecodeLossy (renderBytes env v)) = wr s
    rw [hb, hd]

theorem textual_round_trip_witness :
    fmtRender envT (Value.ofPtr 5) = [104, 105] ∧
    ∀ wr, (Value.fmtOp envT (Value.ofPtr 5) wr).1 = wr [104, 105] :=
  textual_round_trip envT (Value.ofPtr 5) [104, 105] (by decide) (by decide)

/-- The empty foreign heap: no live value objects. -/
def emptyHeap : DuckHeap := ⟨fun _ => none, 0⟩

/-- C5: for every primitive kind, constructing a foreign value of that kind
from input X (within the kind's representable range; floats and doubles as
bit patterns) and reading it back through the matching accessor of the
wrapper yields X exactly. -/
theorem primitive_round_trip (h : DuckHeap) (b : Bool)
    (n8 : Int) (u8 : Nat) (n16 : Int) (u16 : Nat) (n32 : Int) (u32 : Nat)
    (n64 : Int) (u64 : Nat) (fbits dbits : Nat)
    (_h8a : -0x80 ≤ n8) (_h8b : n8 ≤ 0x7F) (_hu8 : u8 ≤ 0xFF)
    (_h16a : -0x8000 ≤ n16) (_h16b : n16 ≤ 0x7FFF) (_hu16 : u16 ≤ 0xFFFF)
    (_h32a : -0x80000000 ≤ n32) (_h32b : n32 ≤ 0x7FFFFFFF)
    (_hu32 : u32 ≤ 0xFFFFFFFF)
    (_h64a : -0x8000000000000000 ≤ n64) (_h64b : n64 ≤ 0x7FFFFFFFFFFFFFFF)
    (_hu64 : u64 ≤ 0xFFFFFFFFFFFFFFFF)
    (_hf : fbits < 2 ^ 32) (_hd : dbits < 2 ^ 64) :
    (Value.to_bool (envOfHeap (createPrim h (.boolV b)).2)
      (Value.ofPtr (createPrim h (.boolV b)).1)).1 = b ∧
    (Value.to_int8 (envOfHeap (createPrim h (.int8V n8)).2)
      (Value.ofPtr (createPrim h (.int8V n8)).1)).1 = n8 ∧
    (Value.to_uint8 (envOfHeap (createPrim h (.uint8V u8)).2)
      (Value.ofPtr (createPrim h (.uint8V u8)).1)).1 = u8 ∧
    (Value.to_int16 (envOfHeap (createPrim h (.int16V n16)).2)
      (Value.ofPtr (createPrim h (.int16V n16)).1)).1 = n16 ∧
    (Value.to_uint16 (envOfHeap (createPrim h (.uint16V u16)).2)
      (Value.ofPtr (createPrim h (.uint16V u16)).1)).1 = u16 ∧
    (Value.to_int32 (envOfHeap (createPrim h (.int32V n32)).2)
      (Value.ofPtr (createPrim h (.int32V n32)).1)).1 = n32 ∧
    (Value.to_uint32 (envOfHeap (createPrim h (.uint32V u32)).2)
      (Value.ofPtr (createPrim h (.uint32V u32)).1)).1 = u32 ∧
    (Value.to_int64 (envOfHeap (createPrim h (.int64V n64)).2)
      (Value.ofPtr (createPrim h (.int64V n64)).1)).1 = n64 ∧
    (Value.to_uint64 (envOfHeap (createPrim h (.uint64V u64)).2)
      (Value.ofPtr (createPrim h (.uint64V u64)).1)).1 = u64 ∧
    (Value.to_float (envOfHeap (createPrim h (.floatV fbits)).2)
      (Value.ofPtr (createPrim h (.floatV fbits)).1)).1 = fbits ∧
    (Value.to_double (envOfHeap (createPrim h (.doubleV dbits)).2)
      (Value.ofPtr (createPrim h (.doubleV dbits)).1)).1 = dbits := by
  refine ⟨?_, ?_, ?_, ?_, ?_, ?_, ?_, ?_, ?_, ?_, ?_⟩ <;>
    simp [Value.to_bool, Value.to_int8, Value.to_uint8, Value.to_int16,
      Value.to_uint16, Value.to_int32, Value.to_uint32, Value.to_int64,
      Value.to_uint64, Value.to_float, Value.to_double, envOfHeap,
      createPrim, Value.ofPtr]

theorem primitive_round_trip_witness :
    ((Value.to_bool (envOfHeap (createPrim emptyHeap (.boolV true)).2)
      (Value.ofPtr (createPrim emptyHeap (.boolV true)).1)).1 = true ∧
    (Value.to_int8 (envOfHeap (createPrim emptyHeap (.int8V (-0x80))).2)
      (Value.ofPtr (createPrim emptyHeap (.int8V (-0x80))).1)).1 = -0x80 ∧
    (Value.to_uint8 (envOfHeap (createPrim emptyHeap (.uint8V 0)).2)
      (Value.ofPtr (createPrim emptyHeap (.uint8V 0)).1)).1 = 0 ∧
    (Value.to_int16 (envOfHeap (createPrim emptyHeap (.int16V (-0x8000))).2)
      (Value.ofPtr (createPrim emptyHeap (.int16V (-0x8000))).1)).1 = -0x8000 ∧
    (Value.to_uint16 (envOfHeap (createPrim emptyHeap (.uint16V 0)).2)
      (Value.ofPtr (createPrim emptyHeap (.uint16V 0)).1)).1 = 0 ∧
    (Value.to_int32 (envOfHeap
        (createPrim emptyHeap (.int32V (-0x80000000))).2)
      (Value.ofPtr (createPrim emptyHeap (.int32V (-0x80000000))).1)).1 =
        -0x80000000 ∧
    (Value.to_uint32 (envOfHeap (createPrim emptyHeap (.uint32V 0)).2)
      (Value.ofPtr (createPrim emptyHeap (.uint32V 0)).1)).1 = 0 ∧
    (Value.to_int64 (envOfHeap
        (createPrim emptyHeap (.int64V (-0x8000000000000000))).2)
      (Value.ofPtr
        (createPrim emptyHeap (.int64V (-0x8000000000000000))).1)).1 =
        -0x8000000000000000 ∧
    (Value.to_uint64 (envOfHeap (createPrim emptyHeap (.uint64V 0)).2)
      (Value.ofPtr (createPrim emptyHeap (.uint64V 0)).1)).1 = 0 ∧
    (Value.to_float (envOfHeap (createPrim emptyHeap (.floatV 0)).2)
      (Value.ofPtr (createPrim emptyHeap (.floatV 0)).1)).1 = 0 ∧
    (Value.to_double (envOfHeap (createPrim emptyHeap (.doubleV 0)).2)
      (Value.ofPtr (createPrim emptyHeap (.doubleV 0)).1)).1 = 0) ∧
    ((Value.to_bool (envOfHeap (createPrim emptyHeap (.boolV false)).2)
      (Value.ofPtr (createPrim emptyHeap (.boolV false)).1)).1 = false ∧
    (Value.to_int8 (envOfHeap (createPrim emptyHeap (.int8V 0x7F)).2)
      (Value.ofPtr (createPrim emptyHeap (.int8V 0x7F)).1)).1 = 0x7F ∧
    (Value.to_uint8 (envOfHeap (createPrim emptyHeap (.uint8V 0xFF)).2)
      (Value.ofPtr (createPrim emptyHeap (.uint8V 0xFF)).1)).1 = 0xFF ∧
    (Value.to_int16 (envOfHeap (createPrim emptyHeap (.int16V 0x7FFF)).2)
      (Value.ofPtr (createPrim emptyHeap (.int16V 0x7FFF)).1)).1 = 0x7FFF ∧
    (Value.to_uint16 (envOfHeap (createPrim emptyHeap (.uint16V 0xFFFF)).2)
      (Value.ofPtr (createPrim emptyHeap (.uint16V 0xFFFF)).1)).1 = 0xFFFF ∧
    (Value.to_int32 (envOfHeap
        (createPrim emptyHeap (.int32V 0x7FFFFFFF)).2)
      (Value.ofPtr (createPrim emptyHeap (.int32V 0x7FFFFFFF)).1)).1 =
        0x7FFFFFFF ∧
    (Value.to_uint32 (envOfHeap
        (createPrim emptyHeap (.uint32V 0xFFFFFFFF)).2)
      (Value.ofPtr (createPrim emptyHeap (.uint32V 0xFFFFFFFF)).1)).1 =
        0xFFFFFFFF ∧
    (Value.to_int64 (envOfHeap
        (createPrim emptyHeap (.int64V 0x7FFFFFFFFFFFFFFF)).2)
      (Value.ofPtr
        (createPrim emptyHeap (.int64V 0x7FFFFFFFFFFFFFFF)).1)).1 =
        0x7FFFFFFFFFFFFFFF ∧
    (Value.to_uint64 (envOfHeap
        (createPrim emptyHeap (.uint64V 0xFFFFFFFFFFFFFFFF)).2)
      (Value.ofPtr
        (createPrim emptyHeap (.uint64V 0xFFFFFFFFFFFFFFFF)).1)).1 =
        0xFFFFFFFFFFFFFFFF ∧
    (Value.to_float (envOfHeap (createPrim emptyHeap (.floatV (2 ^ 32 - 1))).2)
      (Value.ofPtr (createPrim emptyHeap (.floatV (2 ^ 32 - 1))).1)).1 =
        2 ^ 32 - 1 ∧
    (Value.to_double (envOfHeap
        (createPrim emptyHeap (.doubleV (2 ^ 64 - 1))).2)
      (Value.ofPtr (createPrim emptyHeap (.doubleV (2 ^ 64 - 1))).1)).1 =
        2 ^ 64 - 1) :=
  ⟨primitive_round_trip emptyHeap true (-0x80) 0 (-0x8000) 0 (-0x80000000) 0
      (-0x8000000000000000) 0 0 0
      (by decide) (by decide) (by decide) (by decide) (by decide) (by decide)
      (by decide) (by decide) (by decide) (by decide) (by decide) (by decide)
      (by decide) (by decide),
    primitive_round_trip emptyHeap false 0x7F 0xFF 0x7FFF 0xFFFF 0x7FFFFFFF
      0xFFFFFFFF 0x7FFFFFFFFFFFFFFF 0xFFFFFFFFFFFFFFFF (2 ^ 32 - 1)
      (2 ^ 64 - 1)
      (by decide) (by decide) (by decide) (by decide) (by decide) (by decide)
      (by decide) (by decide) (by decide) (by decide) (by decide) (by decide)
      (by decide) (by decide)⟩

theorem drop_release_idempotent_witness :
    destroyCount (Value.dropFn (Value.ofPtr 3)).2 (Value.ofPtr 3).ptr =
      (if (Value.ofPtr 3).ptr ≠ 0 then 1 else 0) ∧
    (∀ h, h ≠ (Value.ofPtr 3).ptr →
      destroyCount (Value.dropFn (Value.ofPtr 3)).2 h = 0) ∧
    (Value.dropFn (Value.ofPtr 3)).1.ptr = 0 ∧
    (Value.dropFn (Value.dropFn (Value.ofPtr 3)).1).2 = [] ∧
    (Value.dropFn (Value.ofPtr 0)).2 = [] :=
  drop_release_idempotent (Value.ofPtr 3)

theorem logical_type_id_no_leak_witness :
    acquired (Value.logical_type_id envA (Value.ofPtr 5)).2 = [] ∧
    leaked (Value.logical_type_id envA (Value.ofPtr 5)).2 = [] ∧
    released (Value.logical_type_id envA (Value.ofPtr 5)).2 = [] :=
  logical_type_id_no_leak envA (Value.ofPtr 5)

theorem fmt_buffer_discipline_witness :
    (Value.fmtOp envA (Value.ofPtr 5) (fun _ => false)).2 =
      [.getVarcharCall (Value.ofPtr 5).ptr
          (envA.duckdb_get_varchar (Value.ofPtr 5).ptr),
        .freeCall (envA.duckdb_get_varchar (Value.ofPtr 5).ptr)] ∧
    acquired (Value.fmtOp envA (Value.ofPtr 5) (fun _ => false)).2 =
      [.buffer (envA.duckdb_get_varchar (Value.ofPtr 5).ptr)] ∧
    released (Value.fmtOp envA (Value.ofPtr 5) (fun _ => false)).2 =
      [.buffer (envA.duckdb_get_varchar (Value.ofPtr 5).ptr)] ∧
    leaked (Value.fmtOp envA (Value.ofPtr 5) (fun _ => false)).2 = [] ∧
    (Value.fmtOp envA (Value.ofPtr 5) (fun _ => false)).2 =
      (Value.fmtOp envA (Value.ofPtr 5) (fun _ => false)).2 ∧
    (∀ h, FFICall.destroyValueCall h ∉
      (Value.fmtOp envA (Value.ofPtr 5) (fun _ => false)).2) :=
  fmt_buffer_discipline envA (Value.ofPtr 5) (fun _ => false)

theorem to_vec_panic_characterization_witness :
    (Value.to_vec envA (Value.ofPtr 5)).1 =
      (if envA.duckdb_get_list_size (Value.ofPtr 5).ptr * valueByteSize ≤
          isizeMax then
        Except.ok ((List.range
            (envA.duckdb_get_list_size (Value.ofPtr 5).ptr)).map
          fun i =>
            Value.ofPtr (envA.duckdb_get_list_child (Value.ofPtr 5).ptr i))
      else Except.error Panic.capacityOverflow) :=
  to_vec_panic_characterization envA (Value.ofPtr 5)

theorem sentinel_no_guard_witness :
    (Value.to_bool envA (Value.ofPtr 0)).2 = [.getBoolCall 0] ∧
    (Value.to_int8 envA (Value.ofPtr 0)).2 = [.getInt8Call 0] ∧
    (Value.to_uint8 envA (Value.ofPtr 0)).2 = [.getUint8Call 0] ∧
    (Value.to_int16 envA (Value.ofPtr 0)).2 = [.getInt16Call 0] ∧
    (Value.to_uint16 envA (Value.ofPtr 0)).2 = [.getUint16Call 0] ∧
    (Value.to_int32 envA (Value.ofPtr 0)).2 = [.getInt32Call 0] ∧
    (Value.to_uint32 envA (Value.ofPtr 0)).2 = [.getUint32Call 0] ∧
    (Value.to_int64 envA (Value.ofPtr 0)).2 = [.getInt64Call 0] ∧
    (Value.to_uint64 envA (Value.ofPtr 0)).2 = [.getUint64Call 0] ∧
    (Value.to_float envA (Value.ofPtr 0)).2 = [.getFloatCall 0] ∧
    (Value.to_double envA (Value.ofPtr 0)).2 = [.getDoubleCall 0] ∧
    (Value.is_null envA (Value.ofPtr 0)).2 = [.isNullValueCall 0] ∧
    (Value.to_vec envA (Value.ofPtr 0)).2.head? =
      some (.getListSizeCall 0 (envA.duckdb_get_list_size 0)) ∧
    (Value.logical_type_id envA (Value.ofPtr 0)).2 =
      [.getValueTypeCall 0 (envA.duckdb_get_value_type 0),
        .getTypeIdCall (envA.duckdb_get_value_type 0)] ∧
    (Value.fmtOp envA (Value.ofPtr 0) (fun _ => true)).2.head? =
      some (.getVarcharCall 0 (envA.duckdb_get_varchar 0)) :=
  sentinel_no_guard envA (fun _ => true)

end DuckRs
